import Mathlib

/-!
Verification of the SM2 P-256 optimized field and curve arithmetic core
(Go package sm2, file with sm2P256FieldElement and friends).

The Go code is shallowly embedded over `Nat`.  Machine integers are
modelled as natural numbers together with explicit reductions `% U32`
(for `uint32` operations) and `% U64` (for `uint64` operations) at every
point where the Go program performs a wrapping machine operation.  Go's
wrapping subtraction `a - b` on a `w`-bit unsigned integer is rendered as
`(a + (2^w - b % 2^w)) % 2^w`, which agrees with it whenever the operands
are in range.  Field elements are records of nine limbs, wide field
elements records of seventeen limbs, mirroring `[9]uint32`/`[17]uint64`.

The fused "2-way" routines of the source call assembly helpers
(`_sm2P256Mul2Way1`, `_sm2P256Mul2Way2`, `_sm2P256Square2Way`,
`_sm2ReduceDegree_2way`) whose bodies are not part of this repository;
those parts are modelled from the specification, which requires the 2-way
results to be indistinguishable from two sequential one-way calls.  Each
such definition carries a doc comment starting with "Modelled from the
spec:".
-/

/-- The modulus of 32-bit machine arithmetic. -/
def U32 : Nat := 4294967296

/-- The modulus of 64-bit machine arithmetic. -/
def U64 : Nat := 18446744073709551616

/-- Constant `bottom28BitsMask` of the source. -/
def bottom28BitsMask : Nat := 0xFFFFFFF

/-- Constant `bottom29BitsMask` of the source. -/
def bottom29BitsMask : Nat := 0x1FFFFFFF

/-- Constant `bottom57BitsMask` of the source. -/
def bottom57BitsMask : Nat := 0x1FFFFFFFFFFFFFF

/-- Constant `twoPower57` of the source. -/
def twoPower57 : Nat := 0x200000000000000

/-- The SM2 prime `p`, as initialised in `initP256Sm2`. -/
def sm2P : Nat := 0xFFFFFFFEFFFFFFFFFFFFFFFFFFFFFFFFFFFFFFFF00000000FFFFFFFFFFFFFFFF

/-- The SM2 group order `n`, as initialised in `initP256Sm2`. -/
def sm2N : Nat := 0xFFFFFFFEFFFFFFFFFFFFFFFFFFFFFFFF7203DF6B21C6052B53BBF40939D54123

/-- The curve coefficient `B`, as initialised in `initP256Sm2`. -/
def sm2B : Nat := 0x28E9FA9E9D9F5E344D5A9E4BCF6509A7F39789F515AB8F92DDBCBD414D940E93

/-- The base point x-coordinate `Gx`. -/
def sm2Gx : Nat := 0x32C4AE2C1F1981195F9904466A39C9948FE30BBFF2660BE1715A4589334C74C7

/-- The base point y-coordinate `Gy`. -/
def sm2Gy : Nat := 0xBC3736A2F4F6779C59BDCEE36B692153D0A9877CC62A474002DF32E52139F0A0

/-- The stored constant `RInverse` with `R = 2^257`. -/
def sm2RInverse : Nat := 0x7ffffffd80000002fffffffe000000017ffffffe800000037ffffffc80000002

/-- The literal `A` fed to `sm2P256FromBig` for the curve coefficient `a`
in `initP256Sm2` (it equals `p - 3`). -/
def sm2A : Nat := 0xFFFFFFFEFFFFFFFFFFFFFFFFFFFFFFFFFFFFFFFF00000000FFFFFFFFFFFFFFFC

/-- A field element: Go type `sm2P256FieldElement = [9]uint32`. -/
structure sm2P256FieldElement where
  l0 : Nat
  l1 : Nat
  l2 : Nat
  l3 : Nat
  l4 : Nat
  l5 : Nat
  l6 : Nat
  l7 : Nat
  l8 : Nat
deriving DecidableEq, Repr

/-- A wide field element: Go type `sm2P256LargeFieldElement = [17]uint64`. -/
structure sm2P256LargeFieldElement where
  w0 : Nat
  w1 : Nat
  w2 : Nat
  w3 : Nat
  w4 : Nat
  w5 : Nat
  w6 : Nat
  w7 : Nat
  w8 : Nat
  w9 : Nat
  w10 : Nat
  w11 : Nat
  w12 : Nat
  w13 : Nat
  w14 : Nat
  w15 : Nat
  w16 : Nat
deriving DecidableEq, Repr

/-- The ten-limb packed buffer `tmp64 [10]uint64` of `sm2P256ReduceDegree`. -/
structure Tmp10 where
  s0 : Nat
  s1 : Nat
  s2 : Nat
  s3 : Nat
  s4 : Nat
  s5 : Nat
  s6 : Nat
  s7 : Nat
  s8 : Nat
  s9 : Nat
deriving DecidableEq, Repr

/-- The all-zero field element (Go zero value of `[9]uint32`). -/
def feZero : sm2P256FieldElement := ⟨0, 0, 0, 0, 0, 0, 0, 0, 0⟩

/-- Function `sm2P256ToBigPlain` of the source: unpack nine limbs by
left-shift-and-add from the top limb down, alternating shifts 28 and 29. -/
def sm2P256ToBigPlain (X : sm2P256FieldElement) : Nat :=
  let r := X.l8
  let r := (r <<< 28) + X.l7
  let r := (r <<< 29) + X.l6
  let r := (r <<< 28) + X.l5
  let r := (r <<< 29) + X.l4
  let r := (r <<< 28) + X.l3
  let r := (r <<< 29) + X.l2
  let r := (r <<< 28) + X.l1
  (r <<< 29) + X.l0

/-- Function `sm2P256ToBig` of the source: `r = toBigPlain X * RInverse mod p`. -/
def sm2P256ToBig (X : sm2P256FieldElement) : Nat :=
  (sm2P256ToBigPlain X * sm2RInverse) % sm2P

/-- Function `getBottom29Bits` of the source: `uint32(bits[0]) & bottom29BitsMask`
where `bits[0]` is the least 64-bit word of the big integer. -/
def getBottom29Bits (x : Nat) : Nat := ((x % U64) % U32) &&& bottom29BitsMask

/-- Function `getBottom28Bits` of the source. -/
def getBottom28Bits (x : Nat) : Nat := ((x % U64) % U32) &&& bottom28BitsMask

/-- Function `sm2P256FromBigPlain` of the source: split a big integer into
limbs of widths 29,28,29,28,29,28,29,28,29, least-significant first. -/
def sm2P256FromBigPlain (x : Nat) : sm2P256FieldElement :=
  ⟨getBottom29Bits x,
   getBottom28Bits (x >>> 29),
   getBottom29Bits (x >>> 29 >>> 28),
   getBottom28Bits (x >>> 29 >>> 28 >>> 29),
   getBottom29Bits (x >>> 29 >>> 28 >>> 29 >>> 28),
   getBottom28Bits (x >>> 29 >>> 28 >>> 29 >>> 28 >>> 29),
   getBottom29Bits (x >>> 29 >>> 28 >>> 29 >>> 28 >>> 29 >>> 28),
   getBottom28Bits (x >>> 29 >>> 28 >>> 29 >>> 28 >>> 29 >>> 28 >>> 29),
   getBottom29Bits (x >>> 29 >>> 28 >>> 29 >>> 28 >>> 29 >>> 28 >>> 29 >>> 28)⟩

/-- Function `sm2P256FromBig` of the source: `X = (a * 2^257 mod p)` packed. -/
def sm2P256FromBig (a : Nat) : sm2P256FieldElement :=
  sm2P256FromBigPlain ((a <<< 257) % sm2P)

/-- The flat table `sm2P256Carry [8*9]uint32` of the source. -/
def sm2P256CarryTable : List Nat :=
  [0x0, 0x0, 0x0, 0x0, 0x0, 0x0, 0x0, 0x0, 0x0,
   0x2, 0x0, 0x1FFFFF00, 0x7FF, 0x0, 0x0, 0x0, 0x2000000, 0x0,
   0x4, 0x0, 0x1FFFFE00, 0xFFF, 0x0, 0x0, 0x0, 0x4000000, 0x0,
   0x6, 0x0, 0x1FFFFD00, 0x17FF, 0x0, 0x0, 0x0, 0x6000000, 0x0,
   0x8, 0x0, 0x1FFFFC00, 0x1FFF, 0x0, 0x0, 0x0, 0x8000000, 0x0,
   0xA, 0x0, 0x1FFFFB00, 0x27FF, 0x0, 0x0, 0x0, 0xA000000, 0x0,
   0xC, 0x0, 0x1FFFFA00, 0x2FFF, 0x0, 0x0, 0x0, 0xC000000, 0x0,
   0xE, 0x0, 0x1FFFF900, 0x37FF, 0x0, 0x0, 0x0, 0xE000000, 0x0]

/-- Function `sm2P256ReduceCarry` of the source: add the `carry`-th row of
`sm2P256Carry` into limbs 0, 2, 3 and 7 (wrapping `uint32` additions). -/
def sm2P256ReduceCarry (a : sm2P256FieldElement) (carry : Nat) : sm2P256FieldElement :=
  { a with
    l0 := (a.l0 + sm2P256CarryTable.getD (carry * 9 + 0) 0) % U32
    l2 := (a.l2 + sm2P256CarryTable.getD (carry * 9 + 2) 0) % U32
    l3 := (a.l3 + sm2P256CarryTable.getD (carry * 9 + 3) 0) % U32
    l7 := (a.l7 + sm2P256CarryTable.getD (carry * 9 + 7) 0) % U32 }

/-- Constant `sm2P256Zero31` of the source (an encoding of 0 mod p). -/
def sm2P256Zero31 : sm2P256FieldElement :=
  ⟨0x7FFFFFF8, 0x3FFFFFFC, 0x800003FC, 0x3FFFDFFC, 0x7FFFFFFC, 0x3FFFFFFC,
   0x7FFFFFFC, 0x37FFFFFC, 0x7FFFFFFC⟩

/-- Function `sm2P256Add` of the source: limbwise wrapping addition with
carry propagation through the alternating 29/28-bit widths, then
`sm2P256ReduceCarry`. -/
def sm2P256Add (a b : sm2P256FieldElement) : sm2P256FieldElement :=
  let c0 := ((a.l0 + b.l0) % U32 + 0) % U32
  let carry := c0 >>> 29
  let c0 := c0 &&& bottom29BitsMask
  let c1 := ((a.l1 + b.l1) % U32 + carry) % U32
  let carry := c1 >>> 28
  let c1 := c1 &&& bottom28BitsMask
  let c2 := ((a.l2 + b.l2) % U32 + carry) % U32
  let carry := c2 >>> 29
  let c2 := c2 &&& bottom29BitsMask
  let c3 := ((a.l3 + b.l3) % U32 + carry) % U32
  let carry := c3 >>> 28
  let c3 := c3 &&& bottom28BitsMask
  let c4 := ((a.l4 + b.l4) % U32 + carry) % U32
  let carry := c4 >>> 29
  let c4 := c4 &&& bottom29BitsMask
  let c5 := ((a.l5 + b.l5) % U32 + carry) % U32
  let carry := c5 >>> 28
  let c5 := c5 &&& bottom28BitsMask
  let c6 := ((a.l6 + b.l6) % U32 + carry) % U32
  let carry := c6 >>> 29
  let c6 := c6 &&& bottom29BitsMask
  let c7 := ((a.l7 + b.l7) % U32 + carry) % U32
  let carry := c7 >>> 28
  let c7 := c7 &&& bottom28BitsMask
  let c8 := ((a.l8 + b.l8) % U32 + carry) % U32
  let carry := c8 >>> 29
  let c8 := c8 &&& bottom29BitsMask
  sm2P256ReduceCarry ⟨c0, c1, c2, c3, c4, c5, c6, c7, c8⟩ carry

/-- Wrapping 32-bit subtraction `a - b` of Go, for `b < 2^32`. -/
def wsub32 (a b : Nat) : Nat := (a + (U32 - b % U32)) % U32

/-- Function `sm2P256Sub` of the source: limbwise wrapping `a - b + Zero31`
with carry propagation, then `sm2P256ReduceCarry`. -/
def sm2P256Sub (a b : sm2P256FieldElement) : sm2P256FieldElement :=
  let c0 := wsub32 a.l0 b.l0
  let c0 := (c0 + sm2P256Zero31.l0) % U32
  let c0 := (c0 + 0) % U32
  let carry := c0 >>> 29
  let c0 := c0 &&& bottom29BitsMask
  let c1 := wsub32 a.l1 b.l1
  let c1 := (c1 + sm2P256Zero31.l1) % U32
  let c1 := (c1 + carry) % U32
  let carry := c1 >>> 28
  let c1 := c1 &&& bottom28BitsMask
  let c2 := wsub32 a.l2 b.l2
  let c2 := (c2 + sm2P256Zero31.l2) % U32
  let c2 := (c2 + carry) % U32
  let carry := c2 >>> 29
  let c2 := c2 &&& bottom29BitsMask
  let c3 := wsub32 a.l3 b.l3
  let c3 := (c3 + sm2P256Zero31.l3) % U32
  let c3 := (c3 + carry) % U32
  let carry := c3 >>> 28
  let c3 := c3 &&& bottom28BitsMask
  let c4 := wsub32 a.l4 b.l4
  let c4 := (c4 + sm2P256Zero31.l4) % U32
  let c4 := (c4 + carry) % U32
  let carry := c4 >>> 29
  let c4 := c4 &&& bottom29BitsMask
  let c5 := wsub32 a.l5 b.l5
  let c5 := (c5 + sm2P256Zero31.l5) % U32
  let c5 := (c5 + carry) % U32
  let carry := c5 >>> 28
  let c5 := c5 &&& bottom28BitsMask
  let c6 := wsub32 a.l6 b.l6
  let c6 := (c6 + sm2P256Zero31.l6) % U32
  let c6 := (c6 + carry) % U32
  let carry := c6 >>> 29
  let c6 := c6 &&& bottom29BitsMask
  let c7 := wsub32 a.l7 b.l7
  let c7 := (c7 + sm2P256Zero31.l7) % U32
  let c7 := (c7 + carry) % U32
  let carry := c7 >>> 28
  let c7 := c7 &&& bottom28BitsMask
  let c8 := wsub32 a.l8 b.l8
  let c8 := (c8 + sm2P256Zero31.l8) % U32
  let c8 := (c8 + carry) % U32
  let carry := c8 >>> 29
  let c8 := c8 &&& bottom29BitsMask
  sm2P256ReduceCarry ⟨c0, c1, c2, c3, c4, c5, c6, c7, c8⟩ carry

/-- The 17-limb schoolbook product of `sm2P256Mul` (lines building `tmp`
before the call to `sm2P256ReduceDegree`).  Each limb is reduced `% U64`,
matching the wrapping `uint64` accumulation of Go. -/
def sm2P256MulWFE (a b : sm2P256FieldElement) : sm2P256LargeFieldElement :=
  ⟨(a.l0 * b.l0) % U64,
   (a.l0 * b.l1 + a.l1 * b.l0) % U64,
   (a.l0 * b.l2 + a.l1 * ((b.l1 <<< 1) % U64) + a.l2 * b.l0) % U64,
   (a.l0 * b.l3 + a.l1 * b.l2 + a.l2 * b.l1 + a.l3 * b.l0) % U64,
   (((a.l1 * b.l3 + a.l3 * b.l1) <<< 1) + a.l0 * b.l4 + a.l2 * b.l2 + a.l4 * b.l0) % U64,
   (a.l0 * b.l5 + a.l1 * b.l4 + a.l2 * b.l3 + a.l3 * b.l2 + a.l4 * b.l1 + a.l5 * b.l0) % U64,
   (((a.l1 * b.l5 + a.l3 * b.l3 + a.l5 * b.l1) <<< 1)
      + a.l0 * b.l6 + a.l2 * b.l4 + a.l4 * b.l2 + a.l6 * b.l0) % U64,
   (a.l0 * b.l7 + a.l1 * b.l6 + a.l2 * b.l5 + a.l3 * b.l4 + a.l4 * b.l3 + a.l5 * b.l2
      + a.l6 * b.l1 + a.l7 * b.l0) % U64,
   (((a.l1 * b.l7 + a.l3 * b.l5 + a.l5 * b.l3 + a.l7 * b.l1) <<< 1)
      + a.l0 * b.l8 + a.l2 * b.l6 + a.l4 * b.l4 + a.l6 * b.l2 + a.l8 * b.l0) % U64,
   (a.l1 * b.l8 + a.l2 * b.l7 + a.l3 * b.l6 + a.l4 * b.l5 + a.l5 * b.l4 + a.l6 * b.l3
      + a.l7 * b.l2 + a.l8 * b.l1) % U64,
   (((a.l3 * b.l7 + a.l5 * b.l5 + a.l7 * b.l3) <<< 1)
      + a.l2 * b.l8 + a.l4 * b.l6 + a.l6 * b.l4 + a.l8 * b.l2) % U64,
   (a.l3 * b.l8 + a.l4 * b.l7 + a.l5 * b.l6 + a.l6 * b.l5 + a.l7 * b.l4 + a.l8 * b.l3) % U64,
   (((a.l5 * b.l7 + a.l7 * b.l5) <<< 1) + a.l4 * b.l8 + a.l6 * b.l6 + a.l8 * b.l4) % U64,
   (a.l5 * b.l8 + a.l6 * b.l7 + a.l7 * b.l6 + a.l8 * b.l5) % U64,
   (a.l6 * b.l8 + ((a.l7 * b.l7) <<< 1) + a.l8 * b.l6) % U64,
   (a.l7 * b.l8 + a.l8 * b.l7) % U64,
   (a.l8 * b.l8) % U64⟩

/-- The 17-limb accumulator of `sm2P256Square` (the `tmp` of the source). -/
def sm2P256SquareWFE (a : sm2P256FieldElement) : sm2P256LargeFieldElement :=
  ⟨(a.l0 * a.l0) % U64,
   ((a.l0 * a.l1) <<< 1) % U64,
   ((a.l0 * a.l2 + a.l1 * a.l1) <<< 1) % U64,
   ((a.l0 * a.l3 + a.l1 * a.l2) <<< 1) % U64,
   (((a.l0 * a.l4 + ((a.l1 * a.l3) <<< 1)) <<< 1) + a.l2 * a.l2) % U64,
   ((a.l0 * a.l5 + a.l1 * a.l4 + a.l2 * a.l3) <<< 1) % U64,
   ((a.l0 * a.l6 + ((a.l1 * a.l5) <<< 1) + a.l2 * a.l4 + a.l3 * a.l3) <<< 1) % U64,
   ((a.l0 * a.l7 + a.l1 * a.l6 + a.l2 * a.l5 + a.l3 * a.l4) <<< 1) % U64,
   (((a.l0 * a.l8 + ((a.l1 * a.l7) <<< 1) + a.l2 * a.l6 + ((a.l3 * a.l5) <<< 1)) <<< 1)
      + a.l4 * a.l4) % U64,
   ((a.l1 * a.l8 + a.l2 * a.l7 + a.l3 * a.l6 + a.l4 * a.l5) <<< 1) % U64,
   ((a.l2 * a.l8 + ((a.l3 * a.l7) <<< 1) + a.l4 * a.l6 + a.l5 * a.l5) <<< 1) % U64,
   ((a.l3 * a.l8 + a.l4 * a.l7 + a.l5 * a.l6) <<< 1) % U64,
   (((a.l4 * a.l8 + ((a.l5 * a.l7) <<< 1)) <<< 1) + a.l6 * a.l6) % U64,
   ((a.l5 * a.l8 + a.l6 * a.l7) <<< 1) % U64,
   ((a.l6 * a.l8 + a.l7 * a.l7) <<< 1) % U64,
   ((a.l7 * a.l8) <<< 1) % U64,
   (a.l8 * a.l8) % U64⟩

/-- Function `sm2P256FromLargeElement` of the source: repack the 17-limb
wide element into ten 57-bit packed limbs (two FE limbs per packed limb,
the odd-indexed one shifted by 29), propagating carries. -/
def sm2P256FromLargeElement (b : sm2P256LargeFieldElement) : Tmp10 :=
  let a0 := (b.w0 + (((b.w1 <<< 29) % U64) &&& bottom57BitsMask)) % U64
  let carry := a0 >>> 57
  let a0 := a0 &&& bottom57BitsMask
  let a1 := (((carry + (b.w1 >>> 28)) % U64 + b.w2) % U64
      + (((b.w3 <<< 29) % U64) &&& bottom57BitsMask)) % U64
  let carry := a1 >>> 57
  let a1 := a1 &&& bottom57BitsMask
  let a2 := (((carry + (b.w3 >>> 28)) % U64 + b.w4) % U64
      + (((b.w5 <<< 29) % U64) &&& bottom57BitsMask)) % U64
  let carry := a2 >>> 57
  let a2 := a2 &&& bottom57BitsMask
  let a3 := (((carry + (b.w5 >>> 28)) % U64 + b.w6) % U64
      + (((b.w7 <<< 29) % U64) &&& bottom57BitsMask)) % U64
  let carry := a3 >>> 57
  let a3 := a3 &&& bottom57BitsMask
  let a4 := (((carry + (b.w7 >>> 28)) % U64 + b.w8) % U64
      + (((b.w9 <<< 29) % U64) &&& bottom57BitsMask)) % U64
  let carry := a4 >>> 57
  let a4 := a4 &&& bottom57BitsMask
  let a5 := (((carry + (b.w9 >>> 28)) % U64 + b.w10) % U64
      + (((b.w11 <<< 29) % U64) &&& bottom57BitsMask)) % U64
  let carry := a5 >>> 57
  let a5 := a5 &&& bottom57BitsMask
  let a6 := (((carry + (b.w11 >>> 28)) % U64 + b.w12) % U64
      + (((b.w13 <<< 29) % U64) &&& bottom57BitsMask)) % U64
  let carry := a6 >>> 57
  let a6 := a6 &&& bottom57BitsMask
  let a7 := (((carry + (b.w13 >>> 28)) % U64 + b.w14) % U64
      + (((b.w15 <<< 29) % U64) &&& bottom57BitsMask)) % U64
  let carry := a7 >>> 57
  let a7 := a7 &&& bottom57BitsMask
  let a8 := ((carry + (b.w15 >>> 28)) % U64 + b.w16) % U64
  ⟨a0, a1, a2, a3, a4, a5, a6, a7, a8, 0⟩

/-- The statements of a reduction round that update lane `j+1`, applied to
its current value `v` when `x > 0`:
`+= (x<<7)&mask57; += twoPower57; -= (x<<39)&mask57` (wrapping `uint64`). -/
def rdF1 (x v : Nat) : Nat :=
  if x = 0 then v else
    (((v + (((x <<< 7) % U64) &&& bottom57BitsMask)) % U64 + twoPower57) % U64
      + (U64 - (((x <<< 39) % U64) &&& bottom57BitsMask))) % U64

/-- Lane `j+2` statements of a reduction round:
`+= x>>50; += bottom57BitsMask; -= x>>18`. -/
def rdF2 (x v : Nat) : Nat :=
  if x = 0 then v else
    (((v + (x >>> 50)) % U64 + bottom57BitsMask) % U64 + (U64 - ((x >>> 18) % U64))) % U64

/-- Lane `j+3` statements of a reduction round:
`+= bottom57BitsMask; -= (x<<53)&mask57`. -/
def rdF3 (x v : Nat) : Nat :=
  if x = 0 then v else
    ((v + bottom57BitsMask) % U64 + (U64 - (((x <<< 53) % U64) &&& bottom57BitsMask))) % U64

/-- Lane `j+4` statements of a reduction round:
`+= bottom57BitsMask; -= (x>>4)&mask57; += (x<<28)&mask57`. -/
def rdF4 (x v : Nat) : Nat :=
  if x = 0 then v else
    (((v + bottom57BitsMask) % U64 + (U64 - ((x >>> 4) &&& bottom57BitsMask))) % U64
      + (((x <<< 28) % U64) &&& bottom57BitsMask)) % U64

/-- Lane `j+5` statements of a reduction round:
`-= 1; += (x>>29)&bottom29BitsMask`. -/
def rdF5 (x v : Nat) : Nat :=
  if x = 0 then v else
    ((v + (U64 - 1)) % U64 + ((x >>> 29) &&& bottom29BitsMask)) % U64

/-- Round `j = 0` of `sm2P256ReduceDegree`: carry step
`tmp64[1] += tmp64[0] >> 57`, then `x = tmp64[0] & mask57` and the guarded
update of lanes 1..5. -/
def rdRound0 (t : Tmp10) : Tmp10 :=
  let v1 := (t.s1 + (t.s0 >>> 57)) % U64
  let x := t.s0 &&& bottom57BitsMask
  { t with s1 := rdF1 x v1, s2 := rdF2 x t.s2, s3 := rdF3 x t.s3,
           s4 := rdF4 x t.s4, s5 := rdF5 x t.s5 }

/-- Round `j = 1` of `sm2P256ReduceDegree`. -/
def rdRound1 (t : Tmp10) : Tmp10 :=
  let v2 := (t.s2 + (t.s1 >>> 57)) % U64
  let x := t.s1 &&& bottom57BitsMask
  { t with s2 := rdF1 x v2, s3 := rdF2 x t.s3, s4 := rdF3 x t.s4,
           s5 := rdF4 x t.s5, s6 := rdF5 x t.s6 }

/-- Round `j = 2` of `sm2P256ReduceDegree`. -/
def rdRound2 (t : Tmp10) : Tmp10 :=
  let v3 := (t.s3 + (t.s2 >>> 57)) % U64
  let x := t.s2 &&& bottom57BitsMask
  { t with s3 := rdF1 x v3, s4 := rdF2 x t.s4, s5 := rdF3 x t.s5,
           s6 := rdF4 x t.s6, s7 := rdF5 x t.s7 }

/-- Round `j = 3` of `sm2P256ReduceDegree`. -/
def rdRound3 (t : Tmp10) : Tmp10 :=
  let v4 := (t.s4 + (t.s3 >>> 57)) % U64
  let x := t.s3 &&& bottom57BitsMask
  { t with s4 := rdF1 x v4, s5 := rdF2 x t.s5, s6 := rdF3 x t.s6,
           s7 := rdF4 x t.s7, s8 := rdF5 x t.s8 }

/-- The final partial round (`j = 4`) of `sm2P256ReduceDegree`: only the
low 29 bits of lane 4 are consumed (`x = tmp64[4] & bottom29BitsMask`,
`tmp64[4] = (tmp64[4] >> 29) << 29`), then lanes 5..9 are updated. -/
def rdRound4 (t : Tmp10) : Tmp10 :=
  let x := t.s4 &&& bottom29BitsMask
  let v4 := (t.s4 >>> 29) <<< 29
  { t with s4 := v4, s5 := rdF1 x t.s5, s6 := rdF2 x t.s6, s7 := rdF3 x t.s7,
           s8 := rdF4 x t.s8, s9 := rdF5 x t.s9 }

/-- The post-fix of `sm2P256ReduceDegree`: if `tmp64[9]+1 == 0` (lane nine
wrapped to all ones), clear it and subtract `2^57` from lane eight. -/
def rdFix (t : Tmp10) : Tmp10 :=
  if (t.s9 + 1) % U64 = 0 then
    { t with s9 := 0, s8 := (t.s8 + (U64 - twoPower57)) % U64 }
  else t

/-- Function `sm2P256DivideByR` of the source: extract the nine FE limbs
from packed lanes 4..9 (alternating 29/28-bit fields with a one-bit
offset), propagating a carry; returns the FE and the final carry. -/
def sm2P256DivideByR (t : Tmp10) : sm2P256FieldElement × Nat :=
  let a0 := (t.s4 >>> 29) % U32
  let a0 := (a0 + (((t.s5 <<< 28) % U32) &&& bottom29BitsMask)) % U32
  let carry := a0 >>> 29
  let a0 := a0 &&& bottom29BitsMask
  let a1 := ((t.s5 >>> 1) % U32) &&& bottom28BitsMask
  let a1 := (a1 + carry) % U32
  let carry := a1 >>> 28
  let a1 := a1 &&& bottom28BitsMask
  let a2 := (t.s5 >>> 29) % U32
  let a2 := (a2 + carry) % U32
  let a2 := (a2 + (((t.s6 <<< 28) % U32) &&& bottom29BitsMask)) % U32
  let carry := a2 >>> 29
  let a2 := a2 &&& bottom29BitsMask
  let a3 := ((t.s6 >>> 1) % U32) &&& bottom28BitsMask
  let a3 := (a3 + carry) % U32
  let carry := a3 >>> 28
  let a3 := a3 &&& bottom28BitsMask
  let a4 := (t.s6 >>> 29) % U32
  let a4 := (a4 + carry) % U32
  let a4 := (a4 + (((t.s7 <<< 28) % U32) &&& bottom29BitsMask)) % U32
  let carry := a4 >>> 29
  let a4 := a4 &&& bottom29BitsMask
  let a5 := ((t.s7 >>> 1) % U32) &&& bottom28BitsMask
  let a5 := (a5 + carry) % U32
  let carry := a5 >>> 28
  let a5 := a5 &&& bottom28BitsMask
  let a6 := (t.s7 >>> 29) % U32
  let a6 := (a6 + carry) % U32
  let a6 := (a6 + (((t.s8 <<< 28) % U32) &&& bottom29BitsMask)) % U32
  let carry := a6 >>> 29
  let a6 := a6 &&& bottom29BitsMask
  let a7 := ((t.s8 >>> 1) % U32) &&& bottom28BitsMask
  let a7 := (a7 + carry) % U32
  let carry := a7 >>> 28
  let a7 := a7 &&& bottom28BitsMask
  let a8 := (t.s8 >>> 29) % U32
  let a8 := (a8 + carry) % U32
  let a8 := (a8 + (((t.s9 <<< 28) % U32) &&& bottom29BitsMask)) % U32
  let carry := a8 >>> 29
  let a8 := a8 &&& bottom29BitsMask
  (⟨a0, a1, a2, a3, a4, a5, a6, a7, a8⟩, carry)

/-- Function `sm2P256ReduceDegree` of the source: repack, run the five
cancellation rounds, apply the post-fix, divide by `R = 2^257` and fold
the final carry. -/
def sm2P256ReduceDegree (b : sm2P256LargeFieldElement) : sm2P256FieldElement :=
  let t := sm2P256FromLargeElement b
  let t := rdRound0 t
  let t := rdRound1 t
  let t := rdRound2 t
  let t := rdRound3 t
  let t := rdRound4 t
  let t := rdFix t
  let ac := sm2P256DivideByR t
  sm2P256ReduceCarry ac.1 ac.2

/-- Function `sm2P256Mul` of the source. -/
def sm2P256Mul (a b : sm2P256FieldElement) : sm2P256FieldElement :=
  sm2P256ReduceDegree (sm2P256MulWFE a b)

/-- Function `sm2P256Square` of the source. -/
def sm2P256Square (a : sm2P256FieldElement) : sm2P256FieldElement :=
  sm2P256ReduceDegree (sm2P256SquareWFE a)

/-- Modelled from the spec: `sm2P256ReduceDegree2Way` delegates to the
assembly routine `_sm2ReduceDegree_2way`, which is not part of this
repository; the spec requires the batched reduction to act as two
independent reductions (the source keeps the equivalent sequential calls
`sm2P256ReduceDegree(c, &tmp1); sm2P256ReduceDegree(c2, &tmp2)` in
comments). -/
def sm2P256ReduceDegree2Way (b b2 : sm2P256LargeFieldElement) :
    sm2P256FieldElement × sm2P256FieldElement :=
  (sm2P256ReduceDegree b, sm2P256ReduceDegree b2)

/-- Modelled from the spec: `sm2P256Mul2Way` computes limb 8 of each wide
product in Go (the same schoolbook expression as in `sm2P256Mul`) and
fills the remaining limbs through the assembly helpers `_sm2P256Mul2Way1`
and `_sm2P256Mul2Way2`, which are not part of this repository; the spec
requires the fused routine to be result-indistinguishable from two
sequential one-way multiplications, so the missing limbs are modelled as
the schoolbook limbs of `sm2P256MulWFE`.  The limb-8 expression below is
the one visible in the Go source. -/
def sm2P256Mul2Way (a1 b1 a2 b2 : sm2P256FieldElement) :
    sm2P256FieldElement × sm2P256FieldElement :=
  let tmp1 := { sm2P256MulWFE a1 b1 with
    w8 := (((a1.l1 * b1.l7 + a1.l3 * b1.l5 + a1.l5 * b1.l3 + a1.l7 * b1.l1) <<< 1)
      + a1.l0 * b1.l8 + a1.l2 * b1.l6 + a1.l4 * b1.l4 + a1.l6 * b1.l2 + a1.l8 * b1.l0) % U64 }
  let tmp2 := { sm2P256MulWFE a2 b2 with
    w8 := (((a2.l1 * b2.l7 + a2.l3 * b2.l5 + a2.l5 * b2.l3 + a2.l7 * b2.l1) <<< 1)
      + a2.l0 * b2.l8 + a2.l2 * b2.l6 + a2.l4 * b2.l4 + a2.l6 * b2.l2 + a2.l8 * b2.l0) % U64 }
  sm2P256ReduceDegree2Way tmp1 tmp2

/-- Modelled from the spec: `sm2P256Square2Way` fills both wide squares
through the assembly helper `_sm2P256Square2Way`, which is not part of
this repository; the spec requires the fused routine to be
result-indistinguishable from two sequential squarings, so the wide limbs
are modelled as those of `sm2P256SquareWFE`. -/
def sm2P256Square2Way (a a2 : sm2P256FieldElement) :
    sm2P256FieldElement × sm2P256FieldElement :=
  sm2P256ReduceDegree2Way (sm2P256SquareWFE a) (sm2P256SquareWFE a2)

/-- The integer denoted by a field element: limb `i` is weighted by two to
the sum of the widths below it (0, 29, 57, 86, 114, 143, 171, 200, 228). -/
def feVal (a : sm2P256FieldElement) : Nat :=
  a.l0 + a.l1 * 2^29 + a.l2 * 2^57 + a.l3 * 2^86 + a.l4 * 2^114 + a.l5 * 2^143
    + a.l6 * 2^171 + a.l7 * 2^200 + a.l8 * 2^228

/-- The integer denoted by a wide field element (limb `i` at bit position
`28*i + ceil(i/2)`). -/
def wfeVal (b : sm2P256LargeFieldElement) : Nat :=
  b.w0 + b.w1 * 2^29 + b.w2 * 2^57 + b.w3 * 2^86 + b.w4 * 2^114 + b.w5 * 2^143
    + b.w6 * 2^171 + b.w7 * 2^200 + b.w8 * 2^228 + b.w9 * 2^257 + b.w10 * 2^285
    + b.w11 * 2^314 + b.w12 * 2^342 + b.w13 * 2^371 + b.w14 * 2^399 + b.w15 * 2^428
    + b.w16 * 2^456

theorem and28_eq (x : Nat) : x &&& bottom28BitsMask = x % 2^28 := by
  have h : bottom28BitsMask = 2^28 - 1 := by norm_num [bottom28BitsMask]
  rw [h, Nat.and_pow_two_sub_one_eq_mod]

theorem and29_eq (x : Nat) : x &&& bottom29BitsMask = x % 2^29 := by
  have h : bottom29BitsMask = 2^29 - 1 := by norm_num [bottom29BitsMask]
  rw [h, Nat.and_pow_two_sub_one_eq_mod]

theorem and57_eq (x : Nat) : x &&& bottom57BitsMask = x % 2^57 := by
  have h : bottom57BitsMask = 2^57 - 1 := by norm_num [bottom57BitsMask]
  rw [h, Nat.and_pow_two_sub_one_eq_mod]

theorem U32_eq : U32 = 2^32 := by norm_num [U32]

theorem U64_eq : U64 = 2^64 := by norm_num [U64]

theorem two57_eq : twoPower57 = 2^57 := by norm_num [twoPower57]

theorem toBigPlain_eq_feVal (a : sm2P256FieldElement) :
    sm2P256ToBigPlain a = feVal a := by
  unfold sm2P256ToBigPlain feVal
  simp only [Nat.shiftLeft_eq]
  ring

/-- Unpack-repack identity: for `y < 2^257` the nine extracted limbs
reassemble to `y`. -/
theorem feVal_fromBigPlain (y : Nat) (hy : y < 2^257) :
    feVal (sm2P256FromBigPlain y) = y := by
  unfold feVal sm2P256FromBigPlain getBottom29Bits getBottom28Bits
  simp only [Nat.shiftRight_eq_div_pow, and28_eq, and29_eq, U32_eq, U64_eq]
  omega

theorem toBigPlain_fromBigPlain (y : Nat) (hy : y < 2^257) :
    sm2P256ToBigPlain (sm2P256FromBigPlain y) = y := by
  rw [toBigPlain_eq_feVal, feVal_fromBigPlain y hy]

theorem sm2P_pos : 0 < sm2P := by norm_num [sm2P]

theorem fromBig_lt (x : Nat) : (x <<< 257) % sm2P < 2^257 :=
  lt_of_lt_of_le (Nat.mod_lt _ sm2P_pos) (by norm_num [sm2P])

/-- The stored constant satisfies `2^257 * RInverse = 1 mod p`. -/
theorem rInverse_spec : (2^257 * sm2RInverse) % sm2P = 1 := by
  norm_num [sm2RInverse, sm2P]

/-- CLAIM C4.  For every integer `x` with `0 <= x < p`, the canonical
round trip through the nine-limb Montgomery representation is the
identity: `sm2P256ToBig (sm2P256FromBig x) = x`. -/
theorem c4_fromBig_toBig_roundtrip (x : Nat) (hx : x < sm2P) :
    sm2P256ToBig (sm2P256FromBig x) = x := by
  unfold sm2P256ToBig sm2P256FromBig
  rw [toBigPlain_fromBigPlain _ (fromBig_lt x), Nat.shiftLeft_eq]
  have h1 : (x * 2^257 % sm2P * sm2RInverse) % sm2P
      = (x * (2^257 * sm2RInverse)) % sm2P := by
    rw [Nat.mod_mul_mod, mul_assoc]
  rw [h1]
  have h2 : (x * (2^257 * sm2RInverse)) % sm2P = x % sm2P := by
    conv_lhs => rw [Nat.mul_mod, rInverse_spec]
    simp
  rw [h2, Nat.mod_eq_of_lt hx]

/-- Witness for C4 at the concrete input 12345. -/
theorem c4_fromBig_toBig_roundtrip_witness :
    12345 < sm2P ∧ sm2P256ToBig (sm2P256FromBig 12345) = 12345 :=
  ⟨by norm_num [sm2P], c4_fromBig_toBig_roundtrip 12345 (by norm_num [sm2P])⟩

/-- CLAIM C7, counterexample.  The claim states that row `carry` of the
eight-row table added by `sm2P256ReduceCarry` encodes the multiple
`2*carry*p` of the prime in the nine-limb representation.  At `carry = 1`
the row (read back through `sm2P256ToBigPlain` after adding it to the
zero element) denotes `2^257 - 2*p`, not `2*p`. -/
theorem c7_counterexample :
    sm2P256ToBigPlain (sm2P256ReduceCarry feZero 1) ≠ 2 * 1 * sm2P := by decide

/-- CLAIM C7, amended.  `sm2P256ReduceCarry a carry` adds a precomputed
vector into limbs 0, 2, 3 and 7 only (limbs 1, 4, 5, 6, 8 are returned
unchanged and limbs 0, 2, 3, 7 receive the table entries of row `carry`),
and for every `carry < 8` row `carry` denotes `carry * 2^257 - 2*carry*p`
in the nine-limb representation — the wrapped form of `-2*carry*p`, which
restores the `carry * 2^257` dropped by the masking while changing the
value only by the multiple `2*carry*p` of the prime. -/
theorem c7_reduceCarry_amended :
    (∀ (a : sm2P256FieldElement) (carry : Nat),
      (sm2P256ReduceCarry a carry).l1 = a.l1 ∧
      (sm2P256ReduceCarry a carry).l4 = a.l4 ∧
      (sm2P256ReduceCarry a carry).l5 = a.l5 ∧
      (sm2P256ReduceCarry a carry).l6 = a.l6 ∧
      (sm2P256ReduceCarry a carry).l8 = a.l8 ∧
      (sm2P256ReduceCarry a carry).l0
        = (a.l0 + sm2P256CarryTable.getD (carry * 9 + 0) 0) % U32 ∧
      (sm2P256ReduceCarry a carry).l2
        = (a.l2 + sm2P256CarryTable.getD (carry * 9 + 2) 0) % U32 ∧
      (sm2P256ReduceCarry a carry).l3
        = (a.l3 + sm2P256CarryTable.getD (carry * 9 + 3) 0) % U32 ∧
      (sm2P256ReduceCarry a carry).l7
        = (a.l7 + sm2P256CarryTable.getD (carry * 9 + 7) 0) % U32) ∧
    (∀ carry, carry < 8 →
      sm2P256ToBigPlain (sm2P256ReduceCarry feZero carry) + 2 * carry * sm2P
        = carry * 2^257) :=
  ⟨fun _ _ => ⟨rfl, rfl, rfl, rfl, rfl, rfl, rfl, rfl, rfl⟩, by decide⟩

/-- Witness for the amended C7 at `carry = 3` and a concrete element. -/
theorem c7_reduceCarry_amended_witness :
    (sm2P256ReduceCarry ⟨1, 2, 3, 4, 5, 6, 7, 8, 9⟩ 3).l1 = 2 ∧
    sm2P256ToBigPlain (sm2P256ReduceCarry feZero 3) + 2 * 3 * sm2P = 3 * 2^257 :=
  ⟨(c7_reduceCarry_amended.1 ⟨1, 2, 3, 4, 5, 6, 7, 8, 9⟩ 3).1,
   c7_reduceCarry_amended.2 3 (by norm_num)⟩

/-- Function `sm2P256SelectAffinePoint` of the source: with
`xbase = index*18` and `ybase = xbase+9`, limb `j` of the outputs is read
directly from `table[xbase+j]` and `table[ybase+j]`. -/
def sm2P256SelectAffinePoint (table : List Nat) (index : Nat) :
    sm2P256FieldElement × sm2P256FieldElement :=
  (⟨table.getD (index * 18 + 0) 0, table.getD (index * 18 + 1) 0,
    table.getD (index * 18 + 2) 0, table.getD (index * 18 + 3) 0,
    table.getD (index * 18 + 4) 0, table.getD (index * 18 + 5) 0,
    table.getD (index * 18 + 6) 0, table.getD (index * 18 + 7) 0,
    table.getD (index * 18 + 8) 0⟩,
   ⟨table.getD (index * 18 + 9 + 0) 0, table.getD (index * 18 + 9 + 1) 0,
    table.getD (index * 18 + 9 + 2) 0, table.getD (index * 18 + 9 + 3) 0,
    table.getD (index * 18 + 9 + 4) 0, table.getD (index * 18 + 9 + 5) 0,
    table.getD (index * 18 + 9 + 6) 0, table.getD (index * 18 + 9 + 7) 0,
    table.getD (index * 18 + 9 + 8) 0⟩)

/-- The sequence of flat table offsets read by `sm2P256SelectAffinePoint`,
taken from the subscript expressions of its loop: iteration `j` reads
`table[xbase+j]` and `table[ybase+j]` with `xbase = index*18`,
`ybase = xbase+9`. -/
def selectAffineReadOffsets (index : Nat) : List Nat :=
  (List.range 9).flatMap (fun j => [index * 18 + j, index * 18 + 9 + j])

/-- Function `sm2P256SelectJacobianPoint` of the source: limb `j` of each
output is read directly from `table[index][0][j]`, `table[index][1][j]`,
`table[index][2][j]`, so the result is entry `index` of the table. -/
def sm2P256SelectJacobianPoint
    (table : List (sm2P256FieldElement × sm2P256FieldElement × sm2P256FieldElement))
    (index : Nat) : sm2P256FieldElement × sm2P256FieldElement × sm2P256FieldElement :=
  table.getD index (feZero, feZero, feZero)

/-- The sequence of accesses (entry, component, limb) performed by
`sm2P256SelectJacobianPoint`, taken from the subscript expressions of its
loop: iteration `j` reads `table[index][0][j]`, `table[index][1][j]` and
`table[index][2][j]`. -/
def selectJacobianReads (index : Nat) : List (Nat × Nat × Nat) :=
  (List.range 9).flatMap (fun j => [(index, 0, j), (index, 1, j), (index, 2, j)])

/-- CLAIM C3, counterexample.  The claim states that both table selections
touch every entry of the table so that the access pattern does not depend
on the index.  In fact `sm2P256SelectAffinePoint` at index 0 reads only
the 18 offsets of entry 0 (entry 1 is never touched), the offset sequences
at indices 0 and 1 differ, and the same holds for
`sm2P256SelectJacobianPoint`. -/
theorem c3_counterexample :
    (¬ ∀ e, e < 16 → ∃ o ∈ selectAffineReadOffsets 0, 18 * e ≤ o ∧ o < 18 * e + 18) ∧
    selectAffineReadOffsets 0 ≠ selectAffineReadOffsets 1 ∧
    (¬ ∀ e, e < 16 → ∃ r ∈ selectJacobianReads 0, r.1 = e) ∧
    selectJacobianReads 0 ≠ selectJacobianReads 1 := by decide

/-- CLAIM C3, amended.  Both table selections are direct indexed reads:
the affine selection reads exactly the 18 flat offsets
`index*18 .. index*18+17` and returns the table words at those offsets,
and the Jacobian selection reads exactly the 27 limbs of entry `index`
and returns that entry; hence the memory access pattern is a function of
the (secret) index, not an index-independent sweep over the table. -/
theorem c3_select_amended :
    (∀ index o, o ∈ selectAffineReadOffsets index ↔
      ∃ j, j < 18 ∧ o = index * 18 + j) ∧
    (∀ table index, (sm2P256SelectAffinePoint table index).1.l0
        = table.getD (index * 18) 0) ∧
    (∀ index r, r ∈ selectJacobianReads index ↔
      r.1 = index ∧ r.2.1 < 3 ∧ r.2.2 < 9) ∧
    (∀ table index, sm2P256SelectJacobianPoint table index
        = table.getD index (feZero, feZero, feZero)) ∧
    selectAffineReadOffsets 0 ≠ selectAffineReadOffsets 1 := by
  refine ⟨?_, fun _ _ => rfl, ?_, fun _ _ => rfl, by decide⟩
  · intro index o
    simp only [selectAffineReadOffsets, List.mem_flatMap, List.mem_range,
      List.mem_cons, List.mem_singleton]
    constructor
    · rintro ⟨j, hj, h | h | h⟩
      · exact ⟨j, by omega, by omega⟩
      · exact ⟨9 + j, by omega, by omega⟩
      · simp at h
    · rintro ⟨j, hj, rfl⟩
      by_cases h : j < 9
      · exact ⟨j, h, Or.inl rfl⟩
      · exact ⟨j - 9, by omega, Or.inr (Or.inl (by omega))⟩
  · intro index r
    simp only [selectJacobianReads, List.mem_flatMap, List.mem_range,
      List.mem_cons, List.mem_singleton]
    constructor
    · rintro ⟨j, hj, h | h | h | h⟩ <;> simp_all <;> omega
    · rintro ⟨h1, h2, h3⟩
      refine ⟨r.2.2, h3, ?_⟩
      rcases r with ⟨re, rc, rj⟩
      simp only at h1 h2 h3 ⊢
      subst h1
      interval_cases rc
      · exact Or.inl rfl
      · exact Or.inr (Or.inl rfl)
      · exact Or.inr (Or.inr (Or.inl rfl))

/-- The local constant `pv` of `sm2P256PointAdd`. -/
def sm2P256PointAddPV : sm2P256FieldElement :=
  ⟨0x1ffffffe, 0xfffffff, 0x200000ff, 0xffff7ff, 0x1fffffff, 0xfffffff,
   0x1fffffff, 0xdffffff, 0x1fffffff⟩

/-- Function `sm2P256PointAdd` of the source, with arguments in the source
order `(x1, y1, z1, x2, y2, z2)` and the output triple `(x3, y3, z3)`
returned.  If `z1` is limbwise zero or limbwise equal to `pv`, the inputs
`(x2, y2, z2)` are copied; otherwise if `z2` is limbwise zero or equal to
`pv`, the inputs `(x1, y1, z1)` are copied; otherwise the Jacobian sum is
computed through the 2-way field routines. -/
def sm2P256PointAdd (x1 y1 z1 x2 y2 z2 : sm2P256FieldElement) :
    sm2P256FieldElement × sm2P256FieldElement × sm2P256FieldElement :=
  if z1 = feZero ∨ z1 = sm2P256PointAddPV then (x2, y2, z2)
  else if z2 = feZero ∨ z2 = sm2P256PointAddPV then (x1, y1, z1)
  else
    let sq := sm2P256Square2Way z1 z2
    let z12 := sq.1
    let z22 := sq.2
    let m1 := sm2P256Mul2Way z12 z1 z22 z2
    let z13 := m1.1
    let z23 := m1.2
    let m2 := sm2P256Mul2Way x1 z22 x2 z12
    let tx1 := m2.1
    let tx2 := m2.2
    let m3 := sm2P256Mul2Way y1 z23 y2 z13
    let ty1 := m3.1
    let ty2 := m3.2
    let dx := sm2P256Sub tx2 tx1
    let dy := sm2P256Sub ty2 ty1
    let sq2 := sm2P256Square2Way dy dx
    let dy2 := sq2.1
    let dx2 := sq2.2
    let m4 := sm2P256Mul2Way dx2 dx tx1 dx2
    let dx3 := m4.1
    let tm := m4.2
    let x3 := sm2P256Sub dy2 dx3
    let x3 := sm2P256Sub x3 tm
    let x3 := sm2P256Sub x3 tm
    let tm := sm2P256Sub tm x3
    let m5 := sm2P256Mul2Way dy tm z1 z2
    let y3 := m5.1
    let z3 := m5.2
    let m6 := sm2P256Mul2Way dx3 ty1 z3 dx
    let tm2 := m6.1
    let z3 := m6.2
    let y3 := sm2P256Sub y3 tm2
    (x3, y3, z3)

/-- CLAIM C6, counterexample.  The claim asserts (i) that `pv` is the FE
encoding of the prime `p` and (ii) that whenever `z2` is all-zero or equal
to `pv` the result copies `(x1, y1, z1)`.  In fact `pv` denotes `2*p`
(not `p`) in the nine-limb representation, and when both `z1` and `z2`
are all-zero the result is `(x2, y2, z2)`, not `(x1, y1, z1)`: the `z1`
test takes precedence. -/
theorem c6_counterexample :
    sm2P256ToBigPlain sm2P256PointAddPV ≠ sm2P ∧
    sm2P256PointAdd ⟨1, 0, 0, 0, 0, 0, 0, 0, 0⟩ feZero feZero
        ⟨2, 0, 0, 0, 0, 0, 0, 0, 0⟩ feZero feZero
      ≠ (⟨1, 0, 0, 0, 0, 0, 0, 0, 0⟩, feZero, feZero) := by
  constructor
  · decide
  · decide

/-- CLAIM C6, amended.  In `sm2P256PointAdd`: if `z1` is limbwise all-zero
or limbwise equal to the sentinel `pv`, the result is a copy of
`(x2, y2, z2)`; if `z1` is neither and `z2` is all-zero or equal to `pv`,
the result is a copy of `(x1, y1, z1)`; and `pv` denotes `2*p` (an
encoding of zero mod p) in the nine-limb representation. -/
theorem c6_pointAdd_infinity (x1 y1 z1 x2 y2 z2 : sm2P256FieldElement) :
    ((z1 = feZero ∨ z1 = sm2P256PointAddPV) →
      sm2P256PointAdd x1 y1 z1 x2 y2 z2 = (x2, y2, z2)) ∧
    (¬ (z1 = feZero ∨ z1 = sm2P256PointAddPV) →
      (z2 = feZero ∨ z2 = sm2P256PointAddPV) →
      sm2P256PointAdd x1 y1 z1 x2 y2 z2 = (x1, y1, z1)) ∧
    sm2P256ToBigPlain sm2P256PointAddPV = 2 * sm2P := by
  refine ⟨fun h => ?_, fun h1 h2 => ?_, by decide⟩
  · unfold sm2P256PointAdd
    rw [if_pos h]
  · unfold sm2P256PointAdd
    rw [if_neg h1, if_pos h2]

/-- Witness for the amended C6: with `z1 = 0` the second point is
returned. -/
theorem c6_pointAdd_infinity_witness :
    sm2P256PointAdd ⟨1, 0, 0, 0, 0, 0, 0, 0, 0⟩ feZero feZero
        ⟨2, 0, 0, 0, 0, 0, 0, 0, 0⟩ ⟨3, 0, 0, 0, 0, 0, 0, 0, 0⟩ feZero
      = (⟨2, 0, 0, 0, 0, 0, 0, 0, 0⟩, ⟨3, 0, 0, 0, 0, 0, 0, 0, 0⟩, feZero) :=
  (c6_pointAdd_infinity _ _ _ _ _ _).1 (Or.inl rfl)

/-- Big-endian byte-string to integer conversion, as performed by
`new(big.Int).SetBytes(a)` in `sm2P256GetScalar`. -/
def natOfBytesBE (l : List Nat) : Nat := l.foldl (fun acc b => acc * 256 + b) 0

/-- Minimal big-endian byte encoding of an integer, as produced by
`big.Int.Bytes` (empty for zero, no leading zero byte). -/
def bytesOfNatBE (n : Nat) : List Nat := (Nat.digits 256 n).reverse

/-- The byte string `scalarBytes` chosen by `sm2P256GetScalar`: the input
reduced mod `n` and re-encoded when it is at least `n`, the input itself
otherwise. -/
def sm2P256GetScalarBytes (a : List Nat) : List Nat :=
  if sm2N ≤ natOfBytesBE a then bytesOfNatBE (natOfBytesBE a % sm2N) else a

/-- The indices written by the loop of `sm2P256GetScalar` into its 32-byte
output, taken from the subscript expression of the loop:
`b[len(scalarBytes)-(1+i)] = v` for each position `i` of `scalarBytes`. -/
def sm2P256GetScalarWriteIndices (a : List Nat) : List Nat :=
  (List.range (sm2P256GetScalarBytes a).length).map
    (fun i => (sm2P256GetScalarBytes a).length - (1 + i))

/-- The 32-byte little-endian output of `sm2P256GetScalar`: position `k`
receives byte `len-1-k` of `scalarBytes` (the byte-reversal of the loop),
and positions at or beyond `len` keep the zero initial value. -/
def sm2P256GetScalar (a : List Nat) : List Nat :=
  (List.range 32).map (fun k =>
    if k < (sm2P256GetScalarBytes a).length then
      (sm2P256GetScalarBytes a).getD ((sm2P256GetScalarBytes a).length - 1 - k) 0
    else 0)

theorem natOfBytesBE_nil : natOfBytesBE [] = 0 := rfl

/-- The reduced branch re-encodes a value below `n < 2^256 = 256^32`, so
its byte string has length at most 32. -/
theorem getScalarBytes_length (a : List Nat) (ha : a.length ≤ 32) :
    (sm2P256GetScalarBytes a).length ≤ 32 := by
  unfold sm2P256GetScalarBytes
  split
  · unfold bytesOfNatBE
    rw [List.length_reverse]
    rcases eq_or_ne (natOfBytesBE a % sm2N) 0 with h0 | h0
    · simp [h0]
    · have h1 := Nat.base_pow_length_digits_le 256 (natOfBytesBE a % sm2N) (by norm_num) h0
      have h2 : natOfBytesBE a % sm2N < 256 ^ 32 :=
        lt_of_lt_of_le (Nat.mod_lt _ (by norm_num [sm2N])) (by norm_num [sm2N])
      by_contra hc
      push_neg at hc
      have h4 : (256:ℕ) ^ 33 ≤ 256 ^ (Nat.digits 256 (natOfBytesBE a % sm2N)).length :=
        Nat.pow_le_pow_right (by norm_num) (by omega)
      have h5 : (256:ℕ) ^ 33 ≤ 256 * (natOfBytesBE a % sm2N) := le_trans h4 h1
      have e33 : (256:ℕ) ^ 33 = 256 * 256 ^ 32 := by ring
      rw [e33] at h5
      have h6 := Nat.le_of_mul_le_mul_left h5 (by norm_num)
      exact absurd h2 (not_lt.mpr h6)
  · exact ha

/-- CLAIM C10.  For every byte string of length at most 32 passed to
`sm2P256GetScalar` (as the scalar arguments of `ScalarMult` and
`ScalarBaseMult` are), every index written into the 32-byte output buffer
is below 32, whether or not the value is reduced mod `n`. -/
theorem c10_getScalar_writes_in_bounds (a : List Nat) (ha : a.length ≤ 32) :
    ∀ i ∈ sm2P256GetScalarWriteIndices a, i < 32 := by
  intro i hi
  unfold sm2P256GetScalarWriteIndices at hi
  simp only [List.mem_map, List.mem_range] at hi
  obtain ⟨j, hj, rfl⟩ := hi
  have := getScalarBytes_length a ha
  omega

/-- Witness for C10 at the concrete input `[1, 2, 3]`. -/
theorem c10_getScalar_writes_in_bounds_witness :
    ([1, 2, 3] : List Nat).length ≤ 32 ∧
    ∀ i ∈ sm2P256GetScalarWriteIndices [1, 2, 3], i < 32 :=
  ⟨by decide, c10_getScalar_writes_in_bounds [1, 2, 3] (by decide)⟩

/-- CLAIM C8.  The fused 2-way routines are result-indistinguishable from
two sequential one-way calls: `sm2P256Mul2Way` returns the two products
computed by `sm2P256Mul`, and `sm2P256Square2Way` returns the two squares
computed by `sm2P256Square`. -/
theorem c8_two_way_equals_sequential (a1 b1 a2 b2 a c : sm2P256FieldElement) :
    sm2P256Mul2Way a1 b1 a2 b2 = (sm2P256Mul a1 b1, sm2P256Mul a2 b2) ∧
    sm2P256Square2Way a c = (sm2P256Square a, sm2P256Square c) :=
  ⟨rfl, rfl⟩
